import Mathlib

/-!
Verification development for the minechat chat client
(`listen-minechat.py` and `send-minechat.py`): a shallow embedding of the
listener's resilient session loop and chat logger, and of the sender's
handshake engine and interactive loop, together with theorems about the
behaviour the specification describes.
-/

namespace ChatWs

/-! ### Python string stripping -/

/-- Python's `str.rstrip()`: drop trailing whitespace. -/
def pyRstrip (s : String) : String :=
  String.mk (List.reverse (List.dropWhile Char.isWhitespace (List.reverse s.data)))

/-- Python's `str.strip()`: drop leading and trailing whitespace. -/
def pyStrip (s : String) : String :=
  String.mk (List.reverse (List.dropWhile Char.isWhitespace
    (List.reverse (List.dropWhile Char.isWhitespace s.data))))

/-! ### Timestamps and the chat logger (`listen-minechat.py`, `ChatLogger`) -/

/-- A wall-clock instant, as far as `strftime("[%d.%m.%y %H:%M]")` consumes it. -/
structure TS where
  day : Nat
  month : Nat
  year : Nat
  hour : Nat
  minute : Nat
deriving DecidableEq

/-- Two-digit zero padding, as `strftime` renders each field. -/
def pad2 (n : Nat) : String :=
  if n < 10 then "0" ++ toString n else toString n

/-- The timestamp prefix produced by `strftime("[%d.%m.%y %H:%M]")`. -/
def formatStamp (t : TS) : String :=
  "[" ++ pad2 t.day ++ "." ++ pad2 t.month ++ "." ++ pad2 (t.year % 100) ++ " " ++
    pad2 t.hour ++ ":" ++ pad2 t.minute ++ "]"

/-- One log entry: `f"{timestamp} {message}"` (line 24 of `listen-minechat.py`). -/
def stampEntry (t : TS) (message : String) : String :=
  formatStamp t ++ " " ++ message

/-- Observable state of the chat logger: the history file's lines and the
console output, both append-only. -/
structure LogSt where
  fileLines : List String
  console : List String
deriving DecidableEq

/-- `ChatLogger.log_message` (lines 21–34): stamp the message, echo it to the
console, then try to append it to the history file; a write failure
(`writeErr = some e`) is caught and reported on the console only. -/
def log_message (t : TS) (writeErr : Option String) (message : String) (st : LogSt) : LogSt :=
  let entry := stampEntry t message
  let st1 : LogSt := { st with console := st.console ++ [entry] }
  match writeErr with
  | none => { st1 with fileLines := st1.fileLines ++ [entry] }
  | some e => { st1 with console := st1.console ++ ["Ошибка записи в файл: " ++ e] }

/-- The listener's per-line processing (lines 119–123): decode, strip trailing
whitespace, skip empty results, log the rest.  Each element pairs the raw line
with an optional injected file-write failure; `k` indexes the clock `now` so
that successive log calls see successive instants. -/
def processLines (now : Nat → TS) : Nat → List (String × Option String) → LogSt → LogSt
  | _, [], st => st
  | k, (l, werr) :: rest, st =>
      let message := pyRstrip l
      if message = "" then processLines now k rest st
      else processLines now (k + 1) rest (log_message (now k) werr message st)

/-- Spec-level description of what the read loop appends to the history file:
one stamped entry per line that is non-empty after stripping, in arrival
order, dropping entries whose file write fails.  Stated independently of the
threaded `LogSt` so that the correspondence with `processLines` is a theorem. -/
def specEntries (now : Nat → TS) : Nat → List (String × Option String) → List String
  | _, [] => []
  | k, (l, werr) :: rest =>
      let message := pyRstrip l
      if message = "" then specEntries now k rest
      else
        match werr with
        | none => stampEntry (now k) message :: specEntries now (k + 1) rest
        | some _ => specEntries now (k + 1) rest

/-! ### The listener's resilient session loop (`minechat_client`, lines 106–155) -/

/-- How one pass through the streaming `async for` ends. -/
inductive StreamExit where
  | clean
  | incompleteRead (leftover : String)
  | osError (e : String)
  | otherExc (e : String)
deriving DecidableEq

/-- The outcome of one connect attempt: the connect itself times out or fails
with an `OSError`, or a connection is established and `lines` are read before
the stream ends as `sExit` describes. -/
inductive Attempt where
  | connTimeout
  | connOSError (e : String)
  | streamed (lines : List String) (sExit : StreamExit)
deriving DecidableEq

/-- Externally visible actions of one loop iteration, in program order. -/
inductive Action where
  | log (s : String)
  | connectAttempt
  | opened
  | sleep (n : Nat)
  | closeWriter
deriving DecidableEq

/-- The log calls the streaming loop makes for the lines it reads: one per
line that is non-empty after `rstrip()`. -/
def msgLogs (lines : List String) : List Action :=
  lines.filterMap fun l =>
    let message := pyRstrip l
    if message = "" then none else some (Action.log message)

/-- `message_count` after the `async for` loop: the number of logged lines. -/
def msgCount (lines : List String) : Nat :=
  (msgLogs lines).length

/-- The actions of the exception handler (or the clean-exit epilogue) that a
given stream exit selects, lines 126–150. -/
def streamExitActions (lines : List String) : StreamExit → List Action
  | .clean =>
      if msgCount lines = 0 then
        [Action.log "Соединение закрыто сервером без отправки данных"]
      else []
  | .incompleteRead leftover =>
      [Action.log ("Неполное чтение: " ++ leftover)]
  | .osError e =>
      [Action.log ("Ошибка подключения: " ++ e),
       Action.log "Попытка переподключения через 5 секунд...",
       Action.sleep 5]
  | .otherExc e =>
      [Action.log ("Неожиданная ошибка: " ++ e),
       Action.log "Попытка переподключения через 5 секунд...",
       Action.sleep 5]

/-- One iteration of the `while True` loop of `minechat_client`
(lines 106–155), as the sequence of actions it performs: the connect log and
attempt, then the branch the outcome selects (note that only the timeout,
`OSError` and unclassified-exception handlers sleep before continuing; the
clean-closure and incomplete-read paths fall through to `finally` directly),
and for an established connection the `finally` close. -/
def listenIteration (host : String) (port : Int) (a : Attempt) : List Action :=
  Action.log ("Подключение к " ++ host ++ ":" ++ toString port ++ "...") ::
  Action.connectAttempt ::
  match a with
  | .connTimeout =>
      [Action.log ("Таймаут подключения к " ++ host ++ ":" ++ toString port),
       Action.log "Попытка переподключения через 5 секунд...",
       Action.sleep 5]
  | .connOSError e =>
      [Action.log ("Ошибка подключения: " ++ e),
       Action.log "Попытка переподключения через 5 секунд...",
       Action.sleep 5]
  | .streamed lines sExit =>
      Action.opened ::
      Action.log ("Соединение установлено с " ++ host ++ ":" ++ toString port) ::
      (msgLogs lines ++ streamExitActions lines sExit ++
        [Action.log "Закрытие соединения...", Action.closeWriter])

/-- The infinite `while True` loop, run over a finite schedule of attempt
outcomes: it never breaks, so it consumes every scheduled outcome. -/
def listenLoop (host : String) (port : Int) : List Attempt → List Action
  | [] => []
  | a :: rest => listenIteration host port a ++ listenLoop host port rest

/-- Which outcomes reach a handler that sleeps 5 seconds before retrying. -/
def needsDelay : Attempt → Bool
  | .connTimeout => true
  | .connOSError _ => true
  | .streamed _ .clean => false
  | .streamed _ (.incompleteRead _) => false
  | .streamed _ (.osError _) => true
  | .streamed _ (.otherExc _) => true

/-! ### Listener configuration (`parse_arguments`, lines 42–88, and `main`) -/

structure ListenArgs where
  host : String
  port : Int
  history : String
deriving DecidableEq

/-- `parse_arguments` of `listen-minechat.py`: each value comes from its flag
when given, else from its environment variable (whose absence argparse sees as
`""` for strings and `0` for the port), and an unresolved value is a fatal
`parser.error` before anything else runs. -/
def parse_arguments_listener (flagHost : Option String) (flagPort : Option Int)
    (flagHistory : Option String) (envHost : String) (envPort : Int)
    (envHistory : String) : Except String ListenArgs :=
  let host := flagHost.getD envHost
  let port := flagPort.getD envPort
  let history := flagHistory.getD envHistory
  if host = "" then
    Except.error "Хост обязателен. Используйте --host или переменную MINECHAT_HOST"
  else if port = 0 then
    Except.error "Порт обязателен. Используйте --port или переменную MINECHAT_PORT"
  else if history = "" then
    Except.error "Файл истории обязателен. Используйте --history или переменную MINECHAT_HISTORY"
  else
    Except.ok { host := host, port := port, history := history }

/-- `main` of `listen-minechat.py`: a configuration error exits before any
connection attempt (empty action trace); otherwise the resilient loop runs. -/
def listener_main (flagHost : Option String) (flagPort : Option Int)
    (flagHistory : Option String) (envHost : String) (envPort : Int)
    (envHistory : String) (attempts : List Attempt) : List Action :=
  match parse_arguments_listener flagHost flagPort flagHistory envHost envPort envHistory with
  | Except.error _ => []
  | Except.ok args => listenLoop args.host args.port attempts

/-! ### The sender (`send-minechat.py`) -/

/-- One line the server sends, tagged with the outcome of `json.loads` on it:
either the line is not valid JSON (`plain`), or it decodes to an object whose
string fields are listed (`jsonObj`).  Reading past end-of-stream yields
`plain ""` (an empty byte string, which `json.loads` rejects). -/
inductive SrvLine where
  | plain (s : String)
  | jsonObj (s : String) (fields : List (String × String))
deriving DecidableEq

/-- The raw text of a server line, as `.decode('utf-8')` yields it. -/
def SrvLine.content : SrvLine → String
  | .plain s => s
  | .jsonObj s _ => s

/-- One open connection: its identity, the lines the server has yet to send
on it, and whether `close()` has been called. -/
structure Conn where
  cid : Nat
  pending : List SrvLine
  closed : Bool
deriving DecidableEq

/-- `reader.readline()`: pop the next server line, or an empty line at EOF. -/
def recvLine (c : Conn) : SrvLine × Conn :=
  match c.pending with
  | [] => (SrvLine.plain "", c)
  | l :: rest => (l, { c with pending := rest })

/-- Externally visible events of a sender run. -/
inductive SEv where
  | opened (cid : Nat)
  | sent (cid : Nat) (s : String)
  | recv (cid : Nat)
  | closedC (cid : Nat)
  | saved (h : String)
  | printed (s : String)
deriving DecidableEq

/-- Python exceptions the handshake can raise and leave uncaught. -/
inductive PyErr where
  | jsonDecodeError
  | keyError (k : String)
deriving DecidableEq

/-- `account_data[k]`: first binding of `k`, `KeyError` (`none`) if absent. -/
def lookupField : List (String × String) → String → Option String
  | [], _ => none
  | (k', v) :: rest, k => if k' = k then some v else lookupField rest k

/-- The nickname registration sends (lines 63–65): the operator's input,
stripped, defaulting to `"Anonymous"` when that leaves nothing. -/
def regNick (opNick : String) : String :=
  if pyStrip opNick = "" then "Anonymous" else pyStrip opNick

/-- `MinechatSender.register_account` (lines 46–83): read the greeting, send
an empty line (the registration sentinel), read the nickname prompt, send the
operator's nickname (stripped; `"Anonymous"` if empty), read the account
record, and on success persist the returned hash via `save_hash` before
returning.  A `json.loads` failure or a missing field propagates uncaught.
Returns the event list, the credential file contents afterwards, and the
result. -/
def register_account (c : Conn) (opNick : String) (hashFile : Option String) :
    List SEv × Option String × Except PyErr (String × String × Conn) :=
  let r1 := recvLine c
  let r2 := recvLine r1.2
  let nickname := regNick opNick
  let r3 := recvLine r2.2
  let evs := [SEv.recv c.cid, SEv.sent c.cid "", SEv.recv c.cid,
              SEv.sent c.cid nickname, SEv.recv c.cid]
  match r3.1 with
  | SrvLine.plain _ => (evs, hashFile, Except.error PyErr.jsonDecodeError)
  | SrvLine.jsonObj _ fields =>
      match lookupField fields "account_hash" with
      | none => (evs, hashFile, Except.error (PyErr.keyError "account_hash"))
      | some account_hash =>
          match lookupField fields "nickname" with
          | none => (evs, hashFile, Except.error (PyErr.keyError "nickname"))
          | some nick =>
              (evs ++ [SEv.saved account_hash], some account_hash,
               Except.ok (account_hash, nick, r3.2))

/-- `MinechatSender.login_with_hash` (lines 85–106): read the greeting, send
the saved hash, read one response.  Only a `json.JSONDecodeError` is caught
(returning `False`); a decoded object without a `nickname` field raises
`KeyError`, which is left uncaught.  On success the adopted nickname is
returned. -/
def login_with_hash (tok : String) (c : Conn) :
    List SEv × Except PyErr (Option String × Bool × Conn) :=
  let r1 := recvLine c
  let r2 := recvLine r1.2
  let evs := [SEv.recv c.cid, SEv.sent c.cid tok, SEv.recv c.cid]
  match r2.1 with
  | SrvLine.plain _ => (evs, Except.ok (none, false, r2.2))
  | SrvLine.jsonObj _ fields =>
      match lookupField fields "nickname" with
      | none => (evs, Except.error (PyErr.keyError "nickname"))
      | some nick => (evs, Except.ok (some nick, true, r2.2))

/-- The environment the sender connects into: the per-connection scripts the
server will play (in order), and the next connection identity. -/
structure Env where
  scripts : List (List SrvLine)
  nextCid : Nat
deriving DecidableEq

/-- `asyncio.open_connection`: a fresh connection playing the next script
(an exhausted schedule yields a connection that sends nothing). -/
def openConnection (env : Env) : Conn × Env :=
  match env.scripts with
  | [] => ({ cid := env.nextCid, pending := [], closed := false },
           { scripts := [], nextCid := env.nextCid + 1 })
  | s :: rest => ({ cid := env.nextCid, pending := s, closed := false },
                  { scripts := rest, nextCid := env.nextCid + 1 })

/-- The result of `connect_and_auth`: events in order, the sender's
`account_hash` and `nickname` attributes, the credential file contents, the
remaining environment, and the connection handed to the caller (or the
uncaught exception). -/
structure AuthOut where
  events : List SEv
  accountHash : Option String
  nickname : Option String
  hashFile : Option String
  env : Env
  result : Except PyErr Conn

/-- Lines 119–128 of `connect_and_auth`: close the current transport, open a
fresh connection, and run the full registration on it. -/
def reconnectAndRegister (evPre : List SEv) (cPrev : Conn) (acctHash : Option String)
    (nick0 : Option String) (opNick : String) (hashFile : Option String)
    (env : Env) : AuthOut :=
  let q := openConnection env
  let r := register_account q.1 opNick hashFile
  let evAll := evPre ++ [SEv.closedC cPrev.cid, SEv.opened q.1.cid] ++ r.1
  match r.2.2 with
  | Except.error e =>
      { events := evAll, accountHash := acctHash, nickname := nick0,
        hashFile := r.2.1, env := q.2, result := Except.error e }
  | Except.ok (h2, n2, c2') =>
      { events := evAll, accountHash := some h2, nickname := some n2,
        hashFile := r.2.1, env := q.2, result := Except.ok c2' }

/-- `MinechatSender.connect_and_auth` (lines 108–128): open a connection; if
a hash is loaded, try to log in on it, returning that connection on success
and propagating any uncaught exception; otherwise (no hash, or login returned
`False`) close the connection and register on a fresh one. -/
def connect_and_auth (acctHash : Option String) (opNick : String)
    (hashFile : Option String) (env : Env) : AuthOut :=
  let p := openConnection env
  match acctHash with
  | none => reconnectAndRegister [SEv.opened p.1.cid] p.1 none none opNick hashFile p.2
  | some tok =>
      let lr := login_with_hash tok p.1
      match lr.2 with
      | Except.error e =>
          { events := SEv.opened p.1.cid :: lr.1, accountHash := some tok,
            nickname := none, hashFile := hashFile, env := p.2,
            result := Except.error e }
      | Except.ok (nickOpt, b, c1') =>
          if b then
            { events := SEv.opened p.1.cid :: lr.1, accountHash := some tok,
              nickname := nickOpt, hashFile := hashFile, env := p.2,
              result := Except.ok c1' }
          else
            reconnectAndRegister (SEv.opened p.1.cid :: lr.1) c1' (some tok)
              nickOpt opNick hashFile p.2

/-- `MinechatSender.send_message` (lines 130–137): write the message line,
then block for exactly one acknowledgement line and display it. -/
def send_message (c : Conn) (message : String) : List SEv × Conn :=
  let r := recvLine c
  ([SEv.sent c.cid message, SEv.recv c.cid, SEv.printed (pyStrip r.1.content)], r.2)

/-- How the interactive loop of lines 153–165 ended. -/
inductive LoopEnd where
  | emptyInput
  | eofError
deriving DecidableEq

/-- The interactive loop (lines 153–165): strip each operator line; an empty
result breaks out of the loop (session end, not an error); otherwise send the
message and wait for its acknowledgement.  Exhausting the operator's input
raises `EOFError`, which the broad handler turns into a break as well. -/
def chatLoop : List String → Conn → List SEv × Conn × LoopEnd
  | [], c => ([], c, LoopEnd.eofError)
  | i :: rest, c =>
      let message := pyStrip i
      if message = "" then ([], c, LoopEnd.emptyInput)
      else
        let s := send_message c message
        let r := chatLoop rest s.2
        (s.1 ++ r.1, r.2.1, r.2.2)

/-- Net observable outcome of a full `interactive_mode` run. -/
structure RunOut where
  events : List SEv
  hashFile : Option String

/-- `MinechatSender.interactive_mode` (lines 139–173): authenticate, read the
chat welcome line, run the interactive loop, and in `finally` close the
transport if it was obtained and is not already closing.  When
`connect_and_auth` raises, `writer` never entered scope, so nothing is
closed. -/
def interactive_mode (acctHash : Option String) (opNick : String)
    (inputs : List String) (hashFile : Option String) (env : Env) : RunOut :=
  let a := connect_and_auth acctHash opNick hashFile env
  match a.result with
  | Except.error _ => { events := a.events, hashFile := a.hashFile }
  | Except.ok c =>
      let w := recvLine c
      let r := chatLoop inputs w.2
      let closeEv := if r.2.1.closed then [] else [SEv.closedC r.2.1.cid]
      { events := a.events ++ [SEv.recv c.cid] ++ r.1 ++ closeEv,
        hashFile := a.hashFile }

/-! ### Sender configuration (`parse_arguments`, lines 176–222, and `main`) -/

structure SendArgs where
  host : String
  port : Int
  hashFilePath : String
deriving DecidableEq

/-- `parse_arguments` of `send-minechat.py`: flag over environment variable,
missing values are a fatal `parser.error`. -/
def parse_arguments_sender (flagHost : Option String) (flagPort : Option Int)
    (flagHashFile : Option String) (envHost : String) (envPort : Int)
    (envHashFile : String) : Except String SendArgs :=
  let host := flagHost.getD envHost
  let port := flagPort.getD envPort
  let hashFilePath := flagHashFile.getD envHashFile
  if host = "" then
    Except.error "Хост обязателен. Используйте --host или переменную MINECHAT_HOST"
  else if port = 0 then
    Except.error "Порт обязателен. Используйте --port или переменную MINECHAT_PORT"
  else if hashFilePath = "" then
    Except.error "Файл hash обязателен. Используйте --hash-file или переменную MINECHAT_HASH"
  else
    Except.ok { host := host, port := port, hashFilePath := hashFilePath }

/-- `MinechatSender.load_hash` (lines 23–35): the stripped credential file
contents, when the file exists and is not blank. -/
def load_hash (fileContents : Option String) : Option String :=
  match fileContents with
  | none => none
  | some c => if pyStrip c = "" then none else some (pyStrip c)

/-- `main` of `send-minechat.py`: a configuration error exits before any file
or network I/O (`none`); otherwise the hash is loaded and the interactive
mode runs. -/
def sender_main (flagHost : Option String) (flagPort : Option Int)
    (flagHashFile : Option String) (envHost : String) (envPort : Int)
    (envHashFile : String) (hashFileContents : Option String) (opNick : String)
    (inputs : List String) (env : Env) : Option RunOut :=
  match parse_arguments_sender flagHost flagPort flagHashFile envHost envPort envHashFile with
  | Except.error _ => none
  | Except.ok _ =>
      some (interactive_mode (load_hash hashFileContents) opNick inputs hashFileContents env)

/-! ### Helper lemmas about the listener loop -/

/-- Number of connect attempts in an action trace. -/
def countConnects : List Action → Nat
  | [] => 0
  | Action.connectAttempt :: r => countConnects r + 1
  | _ :: r => countConnects r

/-- Scan an action trace, tracking whether a transport is currently open;
`false` as soon as a second transport is opened over a live one. -/
def scanOpenL : Bool → List Action → Bool
  | _, [] => true
  | true, Action.opened :: _ => false
  | false, Action.opened :: r => scanOpenL true r
  | _, Action.closeWriter :: r => scanOpenL false r
  | b, _ :: r => scanOpenL b r

/-- Whether a transport is open after the trace, starting from `b`. -/
def openStateL : Bool → List Action → Bool
  | b, [] => b
  | _, Action.opened :: r => openStateL true r
  | _, Action.closeWriter :: r => openStateL false r
  | b, _ :: r => openStateL b r

lemma countConnects_append (x y : List Action) :
    countConnects (x ++ y) = countConnects x + countConnects y := by
  induction x with
  | nil => simp [countConnects]
  | cons a r ih => cases a <;> (simp [countConnects, ih]; try omega)

lemma openStateL_append (b : Bool) (x y : List Action) :
    openStateL b (x ++ y) = openStateL (openStateL b x) y := by
  induction x generalizing b with
  | nil => simp [openStateL]
  | cons a r ih => cases a <;> simp [openStateL, ih]

lemma scanOpenL_append (b : Bool) (x y : List Action) :
    scanOpenL b (x ++ y) = (scanOpenL b x && scanOpenL (openStateL b x) y) := by
  induction x generalizing b with
  | nil => simp [scanOpenL, openStateL]
  | cons a r ih =>
      cases a <;> cases b <;> simp [scanOpenL, openStateL, ih]

lemma mem_msgLogs {a : Action} {lines : List String} (h : a ∈ msgLogs lines) :
    ∃ s, a = Action.log s := by
  simp only [msgLogs, List.mem_filterMap] at h
  obtain ⟨l, _, hf⟩ := h
  by_cases hm : pyRstrip l = ""
  · simp [hm] at hf
  · simp [hm] at hf
    exact ⟨pyRstrip l, hf.symm⟩

lemma msgLogs_cons_skip {l : String} (r : List String) (hm : pyRstrip l = "") :
    msgLogs (l :: r) = msgLogs r := by
  simp [msgLogs, hm]

lemma msgLogs_cons_log {l : String} (r : List String) (hm : ¬ pyRstrip l = "") :
    msgLogs (l :: r) = Action.log (pyRstrip l) :: msgLogs r := by
  simp [msgLogs, hm]

lemma countConnects_msgLogs (lines : List String) :
    countConnects (msgLogs lines) = 0 := by
  induction lines with
  | nil => rfl
  | cons l r ih =>
      by_cases hm : pyRstrip l = ""
      · rw [msgLogs_cons_skip r hm]; exact ih
      · rw [msgLogs_cons_log r hm]; simpa [countConnects] using ih

lemma sleep_not_mem_msgLogs (n : Nat) (lines : List String) :
    Action.sleep n ∉ msgLogs lines := by
  intro h
  obtain ⟨s, hs⟩ := mem_msgLogs h
  cases hs

lemma scanOpenL_msgLogs (b : Bool) (lines : List String) :
    scanOpenL b (msgLogs lines) = true ∧ openStateL b (msgLogs lines) = b := by
  induction lines with
  | nil => simp [msgLogs, scanOpenL, openStateL]
  | cons l r ih =>
      by_cases hm : pyRstrip l = ""
      · rw [msgLogs_cons_skip r hm]; exact ih
      · rw [msgLogs_cons_log r hm]
        cases b <;> simpa [scanOpenL, openStateL] using ih

lemma countConnects_streamExitActions (lines : List String) (ex : StreamExit) :
    countConnects (streamExitActions lines ex) = 0 := by
  cases ex <;> simp [streamExitActions, countConnects]
  split <;> simp [countConnects]

lemma scanOpenL_streamExitActions (b : Bool) (lines : List String) (ex : StreamExit) :
    scanOpenL b (streamExitActions lines ex) = true ∧
      openStateL b (streamExitActions lines ex) = b := by
  cases ex <;> cases b <;> simp [streamExitActions, scanOpenL, openStateL]
  all_goals split <;> simp [scanOpenL, openStateL]

lemma sleep_mem_streamExitActions (lines : List String) (ex : StreamExit) :
    Action.sleep 5 ∈ streamExitActions lines ex ↔ needsDelay (.streamed lines ex) = true := by
  cases ex <;> simp [streamExitActions, needsDelay]

/-- Exactly one connect attempt happens in every loop iteration. -/
lemma countConnects_listenIteration (host : String) (port : Int) (a : Attempt) :
    countConnects (listenIteration host port a) = 1 := by
  cases a with
  | connTimeout => rfl
  | connOSError e => rfl
  | streamed lines ex =>
      simp [listenIteration, countConnects, countConnects_append,
        countConnects_msgLogs, countConnects_streamExitActions]

/-- The 5-second sleep happens in an iteration precisely when the outcome
reaches one of the handlers that delay before retrying. -/
lemma sleep_mem_listenIteration (host : String) (port : Int) (a : Attempt) :
    Action.sleep 5 ∈ listenIteration host port a ↔ needsDelay a = true := by
  cases a with
  | connTimeout => simp [listenIteration, needsDelay]
  | connOSError e => simp [listenIteration, needsDelay]
  | streamed lines ex =>
      simp [listenIteration, sleep_not_mem_msgLogs, sleep_mem_streamExitActions]

/-- Every iteration that reached streaming ends by closing the transport. -/
lemma listenIteration_streamed_ends (host : String) (port : Int)
    (lines : List String) (ex : StreamExit) :
    ∃ pre, listenIteration host port (.streamed lines ex) =
      pre ++ [Action.log "Закрытие соединения...", Action.closeWriter] := by
  refine ⟨Action.log ("Подключение к " ++ host ++ ":" ++ toString port ++ "...") ::
    Action.connectAttempt :: Action.opened ::
    Action.log ("Соединение установлено с " ++ host ++ ":" ++ toString port) ::
    (msgLogs lines ++ streamExitActions lines ex), ?_⟩
  simp [listenIteration]

/-- Iterations that never established a connection touch no transport. -/
lemma closeWriter_not_mem_conn_fail (host : String) (port : Int) :
    Action.closeWriter ∉ listenIteration host port Attempt.connTimeout ∧
      ∀ e, Action.closeWriter ∉ listenIteration host port (Attempt.connOSError e) := by
  constructor
  · simp [listenIteration]
  · intro e; simp [listenIteration]

/-- Each iteration opens at most one transport over a closed state and leaves
it closed again. -/
lemma scanOpenL_listenIteration (host : String) (port : Int) (a : Attempt) :
    scanOpenL false (listenIteration host port a) = true ∧
      openStateL false (listenIteration host port a) = false := by
  cases a with
  | connTimeout => exact ⟨rfl, rfl⟩
  | connOSError e => exact ⟨rfl, rfl⟩
  | streamed lines ex =>
      have hm := scanOpenL_msgLogs true lines
      have hx := scanOpenL_streamExitActions true lines ex
      simp [listenIteration, scanOpenL, openStateL, scanOpenL_append,
        openStateL_append, hm.1, hm.2, hx.1, hx.2]

/-- The loop never holds two transports at once. -/
lemma scanOpenL_listenLoop (host : String) (port : Int) (attempts : List Attempt) :
    scanOpenL false (listenLoop host port attempts) = true ∧
      openStateL false (listenLoop host port attempts) = false := by
  induction attempts with
  | nil => exact ⟨rfl, rfl⟩
  | cons a rest ih =>
      have hi := scanOpenL_listenIteration host port a
      simp [listenLoop, scanOpenL_append, openStateL_append, hi.1, hi.2, ih.1, ih.2]

/-! ### Claim C1 -/

/-- C1, claim as stated, is false: after a clean stream closure the listener
falls through to `finally` and reconnects immediately — the handler chain for
this exit contains no `sleep(5)` at all, so this retry is not preceded by the
fixed delay. -/
theorem C1_counterexample :
    (listenIteration "example.com" 5000 (Attempt.streamed [] StreamExit.clean)).count
      (Action.sleep 5) = 0 := by
  decide

/-- C1 amended: for every failure or non-terminal exit of the listener's
session loop, the process is never terminated and the loop performs exactly
one more connect attempt; the retry is preceded by the fixed 5-unit delay
exactly when the exit is a connect timeout, an `OSError` (refusal or network
failure, during connect or streaming) or an unclassified exception, while a
clean stream closure and a malformed/partial final line retry immediately
with no delay; there is no maximum retry count. -/
theorem C1_amended (host : String) (port : Int) (a : Attempt) (rest : List Attempt) :
    listenLoop host port (a :: rest) =
      listenIteration host port a ++ listenLoop host port rest ∧
    countConnects (listenIteration host port a) = 1 ∧
    (Action.sleep 5 ∈ listenIteration host port a ↔ needsDelay a = true) :=
  ⟨rfl, countConnects_listenIteration host port a, sleep_mem_listenIteration host port a⟩

/-! ### Claim C5 -/

/-- C5: when the stream closes cleanly with zero lines received, the listener
logs the closed-without-data message, the loop goes on to the next iteration
(clean closure is not terminal), and over this iteration plus any next one
exactly two connect attempts happen — so the closure is retried, not treated
as success. -/
theorem C5_clean_closure_without_data (host : String) (port : Int)
    (rest : List Attempt) (next : Attempt) :
    Action.log "Соединение закрыто сервером без отправки данных" ∈
      listenIteration host port (Attempt.streamed [] StreamExit.clean) ∧
    listenLoop host port (Attempt.streamed [] StreamExit.clean :: rest) =
      listenIteration host port (Attempt.streamed [] StreamExit.clean) ++
        listenLoop host port rest ∧
    countConnects (listenLoop host port [Attempt.streamed [] StreamExit.clean, next]) = 2 := by
  refine ⟨?_, rfl, ?_⟩
  · simp [listenIteration, streamExitActions, msgLogs, msgCount]
  · have h1 : listenLoop host port [Attempt.streamed [] StreamExit.clean, next] =
        listenIteration host port (Attempt.streamed [] StreamExit.clean) ++
          (listenIteration host port next ++ []) := rfl
    rw [h1, countConnects_append, countConnects_append,
      countConnects_listenIteration, countConnects_listenIteration]
    rfl

/-! ### Helper lemmas about the chat logger -/

/-- The messages the read loop logs: the lines, stripped of trailing
whitespace, with the ones that strip to nothing removed. -/
def validMessages (lines : List String) : List String :=
  lines.filterMap fun l => if pyRstrip l = "" then none else some (pyRstrip l)

/-- Stamp each message with the successive clock instants from `k` on. -/
def stampList (now : Nat → TS) : Nat → List String → List String
  | _, [] => []
  | k, m :: r => stampEntry (now k) m :: stampList now (k + 1) r

/-- The history file after the read loop is exactly the old contents followed
by the entries of `specEntries`: the loop appends and never rewrites. -/
lemma processLines_fileLines (now : Nat → TS) (k : Nat)
    (lines : List (String × Option String)) (st : LogSt) :
    (processLines now k lines st).fileLines = st.fileLines ++ specEntries now k lines := by
  induction lines generalizing k st with
  | nil => simp [processLines, specEntries]
  | cons p rest ih =>
      obtain ⟨l, werr⟩ := p
      by_cases hm : pyRstrip l = ""
      · simp [processLines, specEntries, hm, ih]
      · cases werr with
        | none =>
            simp [processLines, specEntries, hm, ih, log_message, List.append_assoc]
        | some e =>
            simp [processLines, specEntries, hm, ih, log_message]

/-- With no write failures, `specEntries` is the valid messages, stamped in
arrival order with successive instants. -/
lemma specEntries_all_ok (now : Nat → TS) (k : Nat) (lines : List String) :
    specEntries now k (lines.map fun l => (l, none)) =
      stampList now k (validMessages lines) := by
  induction lines generalizing k with
  | nil => simp [specEntries, validMessages, stampList]
  | cons l rest ih =>
      by_cases hm : pyRstrip l = ""
      · simp [specEntries, validMessages, hm, ih]
      · simp [specEntries, validMessages, hm, ih, stampList]

/-! ### Claim C4 -/

/-- C4, claim as stated, is false: a whitespace-only line read from the
transport is not empty, yet `rstrip()` reduces it to the empty string and the
loop appends no log entry for it. -/
theorem C4_counterexample :
    (processLines (fun _ => TS.mk 1 1 1 0 0) 0 [("   ", none)] (LogSt.mk [] [])).fileLines
        = [] ∧
      ("   " == "") = false := by
  constructor
  · rfl
  · rfl

/-- C4 amended: for every sequence of lines read from the transport, each
line that strips (of trailing whitespace) to the empty string appends no log
entry, and every other line appends exactly one entry, namely its stripped
text stamped `[DD.MM.YY HH:MM]`, in arrival order; in particular the inputs
`["hello", "", "world"]` yield exactly the two new entries `hello` then
`world`. -/
theorem C4_amended (now : Nat → TS) (k : Nat) (lines : List String) (st : LogSt) :
    (processLines now k (lines.map fun l => (l, none)) st).fileLines =
        st.fileLines ++ stampList now k (validMessages lines) ∧
      formatStamp (TS.mk 25 12 2007 9 5) = "[25.12.07 09:05]" ∧
      (processLines now 0 ([("hello", none), ("", none), ("world", none)]) st).fileLines =
        st.fileLines ++ [stampEntry (now 0) "hello", stampEntry (now 1) "world"] := by
  refine ⟨?_, rfl, ?_⟩
  · rw [processLines_fileLines, specEntries_all_ok]
  · rw [processLines_fileLines]
    rfl

/-! ### Claim C8 -/

/-- C8: a failing append to the history file is caught: the entry is still
echoed to the console, the failure is reported on the console, the file is
untouched by that entry, and the read loop goes on — the file afterwards
holds exactly the successfully written entries of the whole input, the
failing line costing only its own entry.  Concretely, with a write failure on
the middle line of three, the file gains the first and third entries. -/
theorem C8_write_failure_swallowed (now : Nat → TS) (k : Nat) (t : TS) (e : String)
    (m : String) (st : LogSt) (lines : List (String × Option String)) :
    log_message t (some e) m st =
        LogSt.mk st.fileLines
          ((st.console ++ [stampEntry t m]) ++ ["Ошибка записи в файл: " ++ e]) ∧
      (processLines now k lines st).fileLines = st.fileLines ++ specEntries now k lines ∧
      (processLines now 0 [("a", none), ("b", some e), ("c", none)] st).fileLines =
        st.fileLines ++ [stampEntry (now 0) "a", stampEntry (now 2) "c"] := by
  refine ⟨rfl, processLines_fileLines now k lines st, ?_⟩
  rw [processLines_fileLines]
  rfl

/-! ### Helper lemmas about configuration parsing -/

lemma parse_listener_error (fh : Option String) (fp : Option Int) (fhist : Option String)
    (eh : String) (ep : Int) (ehist : String)
    (h : fh.getD eh = "" ∨ fp.getD ep = 0 ∨ fhist.getD ehist = "") :
    ∃ e, parse_arguments_listener fh fp fhist eh ep ehist = Except.error e := by
  unfold parse_arguments_listener
  by_cases h1 : fh.getD eh = ""
  · exact ⟨"Хост обязателен. Используйте --host или переменную MINECHAT_HOST", by simp [h1]⟩
  · by_cases h2 : fp.getD ep = 0
    · exact ⟨"Порт обязателен. Используйте --port или переменную MINECHAT_PORT",
        by simp [h1, h2]⟩
    · by_cases h3 : fhist.getD ehist = ""
      · exact ⟨"Файл истории обязателен. Используйте --history или переменную MINECHAT_HISTORY",
          by simp [h1, h2, h3]⟩
      · tauto

lemma parse_listener_ok (fh : Option String) (fp : Option Int) (fhist : Option String)
    (eh : String) (ep : Int) (ehist : String) (args : ListenArgs)
    (h : parse_arguments_listener fh fp fhist eh ep ehist = Except.ok args) :
    args.host = fh.getD eh ∧ args.port = fp.getD ep ∧ args.history = fhist.getD ehist := by
  unfold parse_arguments_listener at h
  by_cases h1 : fh.getD eh = ""
  · simp [h1] at h
  · by_cases h2 : fp.getD ep = 0
    · simp [h1, h2] at h
    · by_cases h3 : fhist.getD ehist = ""
      · simp [h1, h2, h3] at h
      · simp [h1, h2, h3] at h
        subst h
        exact ⟨rfl, rfl, rfl⟩

lemma parse_sender_error (fh : Option String) (fp : Option Int) (fhash : Option String)
    (eh : String) (ep : Int) (ehash : String)
    (h : fh.getD eh = "" ∨ fp.getD ep = 0 ∨ fhash.getD ehash = "") :
    ∃ e, parse_arguments_sender fh fp fhash eh ep ehash = Except.error e := by
  unfold parse_arguments_sender
  by_cases h1 : fh.getD eh = ""
  · exact ⟨"Хост обязателен. Используйте --host или переменную MINECHAT_HOST", by simp [h1]⟩
  · by_cases h2 : fp.getD ep = 0
    · exact ⟨"Порт обязателен. Используйте --port или переменную MINECHAT_PORT",
        by simp [h1, h2]⟩
    · by_cases h3 : fhash.getD ehash = ""
      · exact ⟨"Файл hash обязателен. Используйте --hash-file или переменную MINECHAT_HASH",
          by simp [h1, h2, h3]⟩
      · tauto

lemma parse_sender_ok (fh : Option String) (fp : Option Int) (fhash : Option String)
    (eh : String) (ep : Int) (ehash : String) (args : SendArgs)
    (h : parse_arguments_sender fh fp fhash eh ep ehash = Except.ok args) :
    args.host = fh.getD eh ∧ args.port = fp.getD ep ∧ args.hashFilePath = fhash.getD ehash := by
  unfold parse_arguments_sender at h
  by_cases h1 : fh.getD eh = ""
  · simp [h1] at h
  · by_cases h2 : fp.getD ep = 0
    · simp [h1, h2] at h
    · by_cases h3 : fhash.getD ehash = ""
      · simp [h1, h2, h3] at h
      · simp [h1, h2, h3] at h
        subst h
        exact ⟨rfl, rfl, rfl⟩

/-! ### Claim C7 -/

/-- C7: in both roles, if host, port or the file path cannot be resolved from
its flag or its environment variable (flag first: the resolved value is the
flag's when one is given, the environment's otherwise), argument parsing ends
in a fatal error and the process performs no connection attempt and no other
I/O — the listener produces an empty action trace, the sender does not even
load the credential file. -/
theorem C7_config_error_fatal_before_io
    (fh : Option String) (fp : Option Int) (fhist : Option String)
    (eh : String) (ep : Int) (ehist : String) (attempts : List Attempt)
    (sfh : Option String) (sfp : Option Int) (sfhash : Option String)
    (seh : String) (sep : Int) (sehash : String) (hc : Option String)
    (opNick : String) (inputs : List String) (env : Env) :
    (fh.getD eh = "" ∨ fp.getD ep = 0 ∨ fhist.getD ehist = "" →
      (∃ e, parse_arguments_listener fh fp fhist eh ep ehist = Except.error e) ∧
        listener_main fh fp fhist eh ep ehist attempts = []) ∧
    (sfh.getD seh = "" ∨ sfp.getD sep = 0 ∨ sfhash.getD sehash = "" →
      (∃ e, parse_arguments_sender sfh sfp sfhash seh sep sehash = Except.error e) ∧
        sender_main sfh sfp sfhash seh sep sehash hc opNick inputs env = none) ∧
    (∀ args, parse_arguments_listener fh fp fhist eh ep ehist = Except.ok args →
      args.host = fh.getD eh ∧ args.port = fp.getD ep ∧ args.history = fhist.getD ehist) ∧
    (∀ args, parse_arguments_sender sfh sfp sfhash seh sep sehash = Except.ok args →
      args.host = sfh.getD seh ∧ args.port = sfp.getD sep ∧
        args.hashFilePath = sfhash.getD sehash) := by
  refine ⟨?_, ?_, ?_, ?_⟩
  · intro h
    obtain ⟨e, he⟩ := parse_listener_error fh fp fhist eh ep ehist h
    exact ⟨⟨e, he⟩, by simp [listener_main, he]⟩
  · intro h
    obtain ⟨e, he⟩ := parse_sender_error sfh sfp sfhash seh sep sehash h
    exact ⟨⟨e, he⟩, by simp [sender_main, he]⟩
  · intro args h
    exact parse_listener_ok fh fp fhist eh ep ehist args h
  · intro args h
    exact parse_sender_ok sfh sfp sfhash seh sep sehash args h

/-- C7 witness: with nothing configured, both parsers fail and neither role
performs any I/O. -/
theorem C7_witness :
    ((∃ e, parse_arguments_listener none none none "" 0 "" = Except.error e) ∧
      listener_main none none none "" 0 "" [] = []) ∧
    ((∃ e, parse_arguments_sender none none none "" 0 "" = Except.error e) ∧
      sender_main none none none "" 0 "" none "" [] (Env.mk [] 0) = none) :=
  ⟨(C7_config_error_fatal_before_io none none none "" 0 "" [] none none none "" 0 ""
      none "" [] (Env.mk [] 0)).1 (Or.inl rfl),
   (C7_config_error_fatal_before_io none none none "" 0 "" [] none none none "" 0 ""
      none "" [] (Env.mk [] 0)).2.1 (Or.inl rfl)⟩

/-! ### Helper lemmas about the sender's handshake -/

lemma recvLine_cid (c : Conn) : (recvLine c).2.cid = c.cid := by
  cases h : c.pending <;> simp [recvLine, h]

lemma recvLine_closed (c : Conn) : (recvLine c).2.closed = c.closed := by
  cases h : c.pending <;> simp [recvLine, h]

/-- The login attempt always performs exactly the exchange
read-greeting / send-token / read-response, on the same connection. -/
lemma login_events (tok : String) (c : Conn) :
    (login_with_hash tok c).1 = [SEv.recv c.cid, SEv.sent c.cid tok, SEv.recv c.cid] := by
  unfold login_with_hash
  dsimp only
  split
  · rfl
  · split <;> rfl

/-- The login attempt never touches the credential store: no `saved` event. -/
lemma login_no_saved (tok : String) (c : Conn) (h : String) :
    SEv.saved h ∉ (login_with_hash tok c).1 := by
  rw [login_events]
  simp

lemma login_ok_conn (tok : String) (c : Conn) (nickOpt : Option String) (b : Bool)
    (c' : Conn) (h : (login_with_hash tok c).2 = Except.ok (nickOpt, b, c')) :
    c'.cid = c.cid ∧ c'.closed = c.closed := by
  unfold login_with_hash at h
  dsimp only at h
  have h2 : (recvLine (recvLine c).2).2.cid = c.cid := by
    rw [recvLine_cid, recvLine_cid]
  have h3 : (recvLine (recvLine c).2).2.closed = c.closed := by
    rw [recvLine_closed, recvLine_closed]
  split at h
  · cases h
    exact ⟨h2, h3⟩
  · split at h
    · cases h
    · cases h
      exact ⟨h2, h3⟩

/-- Registration always performs the full exchange — greeting read, empty
line (the sentinel), prompt read, nickname write, record read — on the one
connection it is given, followed at most by the credential save. -/
lemma register_events (c : Conn) (opNick : String) (hf : Option String) :
    ∃ tail, (register_account c opNick hf).1 =
        [SEv.recv c.cid, SEv.sent c.cid "", SEv.recv c.cid,
         SEv.sent c.cid (regNick opNick), SEv.recv c.cid] ++ tail ∧
      (tail = [] ∨ ∃ h, tail = [SEv.saved h]) := by
  simp only [register_account]
  rcases hr : (recvLine (recvLine (recvLine c).2).2).1 with s | ⟨s, fields⟩ <;>
    simp only [hr]
  · exact ⟨[], by simp, Or.inl rfl⟩
  · rcases ha : lookupField fields "account_hash" with _ | ah <;> simp only [ha]
    · exact ⟨[], by simp, Or.inl rfl⟩
    · rcases hn : lookupField fields "nickname" with _ | nk <;> simp only [hn]
      · exact ⟨[], by simp, Or.inl rfl⟩
      · exact ⟨[SEv.saved ah], by simp, Or.inr ⟨ah, rfl⟩⟩

/-- A successful registration persists exactly the hash it returns, via a
`saved` event. -/
lemma register_ok_saves (c : Conn) (opNick : String) (hf : Option String)
    (h2 n2 : String) (c2 : Conn)
    (h : (register_account c opNick hf).2.2 = Except.ok (h2, n2, c2)) :
    (register_account c opNick hf).2.1 = some h2 ∧
      SEv.saved h2 ∈ (register_account c opNick hf).1 := by
  simp only [register_account] at h ⊢
  rcases hr : (recvLine (recvLine (recvLine c).2).2).1 with s | ⟨s, fields⟩ <;>
    simp only [hr] at h ⊢
  · cases h
  · rcases ha : lookupField fields "account_hash" with _ | ah <;> simp only [ha] at h ⊢
    · cases h
    · rcases hn : lookupField fields "nickname" with _ | nk <;> simp only [hn] at h ⊢
      · cases h
      · simp only [Except.ok.injEq, Prod.mk.injEq] at h
        obtain ⟨hh, -, -⟩ := h
        subst hh
        exact ⟨rfl, by simp⟩

/-- A failed registration leaves the credential file untouched. -/
lemma register_error_hashFile (c : Conn) (opNick : String) (hf : Option String)
    (e : PyErr) (h : (register_account c opNick hf).2.2 = Except.error e) :
    (register_account c opNick hf).2.1 = hf := by
  simp only [register_account] at h ⊢
  rcases hr : (recvLine (recvLine (recvLine c).2).2).1 with s | ⟨s, fields⟩
  all_goals simp only [hr] at h ⊢
  rcases ha : lookupField fields "account_hash" with _ | ah
  all_goals simp only [ha] at h ⊢
  rcases hn : lookupField fields "nickname" with _ | nk
  all_goals simp only [hn] at h ⊢
  cases h

lemma register_ok_conn (c : Conn) (opNick : String) (hf : Option String)
    (h2 n2 : String) (c2 : Conn)
    (h : (register_account c opNick hf).2.2 = Except.ok (h2, n2, c2)) :
    c2.cid = c.cid ∧ c2.closed = c.closed := by
  have hc : (recvLine (recvLine (recvLine c).2).2).2.cid = c.cid := by
    rw [recvLine_cid, recvLine_cid, recvLine_cid]
  have hcl : (recvLine (recvLine (recvLine c).2).2).2.closed = c.closed := by
    rw [recvLine_closed, recvLine_closed, recvLine_closed]
  simp only [register_account] at h
  rcases hr : (recvLine (recvLine (recvLine c).2).2).1 with s | ⟨s, fields⟩ <;>
    simp only [hr] at h
  · cases h
  · rcases ha : lookupField fields "account_hash" with _ | ah <;> simp only [ha] at h
    · cases h
    · rcases hn : lookupField fields "nickname" with _ | nk <;> simp only [hn] at h
      · cases h
      · simp only [Except.ok.injEq, Prod.mk.injEq] at h
        obtain ⟨-, -, hcc⟩ := h
        subst hcc
        exact ⟨hc, hcl⟩

/-! ### Transport-occupancy scan for sender events -/

/-- Whether an event opens or closes a transport. -/
def SEv.isConnEv : SEv → Bool
  | .opened _ => true
  | .closedC _ => true
  | _ => false

/-- Scan a sender event trace, tracking whether a transport is currently
open; `false` as soon as a second transport is opened over a live one. -/
def scanOpenS : Bool → List SEv → Bool
  | _, [] => true
  | true, SEv.opened _ :: _ => false
  | false, SEv.opened _ :: r => scanOpenS true r
  | _, SEv.closedC _ :: r => scanOpenS false r
  | b, _ :: r => scanOpenS b r

/-- Whether a transport is open after the trace, starting from `b`. -/
def openStateS : Bool → List SEv → Bool
  | b, [] => b
  | _, SEv.opened _ :: r => openStateS true r
  | _, SEv.closedC _ :: r => openStateS false r
  | b, _ :: r => openStateS b r

lemma openStateS_append (b : Bool) (x y : List SEv) :
    openStateS b (x ++ y) = openStateS (openStateS b x) y := by
  induction x generalizing b with
  | nil => simp [openStateS]
  | cons a r ih => cases a <;> simp [openStateS, ih]

lemma scanOpenS_append (b : Bool) (x y : List SEv) :
    scanOpenS b (x ++ y) = (scanOpenS b x && scanOpenS (openStateS b x) y) := by
  induction x generalizing b with
  | nil => simp [scanOpenS, openStateS]
  | cons a r ih =>
      cases a <;> cases b <;> simp [scanOpenS, openStateS, ih]

/-- Traces that never touch a transport leave the scan and its state alone. -/
lemma scanOpenS_neutral (tr : List SEv) (hne : ∀ e ∈ tr, e.isConnEv = false) (b : Bool) :
    scanOpenS b tr = true ∧ openStateS b tr = b := by
  induction tr generalizing b with
  | nil => cases b <;> exact ⟨rfl, rfl⟩
  | cons e r ih =>
      have he := hne e (List.mem_cons_self e r)
      have hr := ih (fun x hx => hne x (List.mem_cons_of_mem e hx))
      cases e <;> simp [SEv.isConnEv] at he ⊢ <;> cases b <;>
        exact ⟨(hr _).1, (hr _).2⟩

lemma login_events_neutral (tok : String) (c : Conn) :
    ∀ e ∈ (login_with_hash tok c).1, e.isConnEv = false := by
  rw [login_events]
  intro e he
  simp only [List.mem_cons, List.not_mem_nil, or_false] at he
  rcases he with rfl | rfl | rfl <;> rfl

lemma register_events_neutral (c : Conn) (opNick : String) (hf : Option String) :
    ∀ e ∈ (register_account c opNick hf).1, e.isConnEv = false := by
  obtain ⟨tail, heq, htail⟩ := register_events c opNick hf
  intro e he
  rw [heq] at he
  rcases List.mem_append.mp he with h | h
  · simp only [List.mem_cons, List.not_mem_nil, or_false] at h
    rcases h with rfl | rfl | rfl | rfl | rfl <;> rfl
  · rcases htail with rfl | ⟨hh, rfl⟩
    · cases h
    · simp only [List.mem_cons, List.not_mem_nil, or_false] at h
      rw [h]
      rfl

/-! ### Structural lemmas about the interactive loop and `connect_and_auth` -/

lemma recvLine_head (c : Conn) :
    (recvLine c).1 = c.pending.headD (SrvLine.plain "") ∧
      (recvLine c).2.pending = c.pending.tail := by
  cases h : c.pending <;> simp [recvLine, h]

/-- The interactive loop never changes which connection it talks on, and
never closes it. -/
lemma chatLoop_conn (inputs : List String) (c : Conn) :
    (chatLoop inputs c).2.1.cid = c.cid ∧ (chatLoop inputs c).2.1.closed = c.closed := by
  induction inputs generalizing c with
  | nil => exact ⟨rfl, rfl⟩
  | cons i rest ih =>
      by_cases hm : pyStrip i = ""
      · simp [chatLoop, hm]
      · have h1 := ih (recvLine c).2
        simp [chatLoop, hm, send_message, h1.1, h1.2, recvLine_cid, recvLine_closed]

/-- The interactive loop's events never open or close a transport. -/
lemma chatLoop_events_neutral (inputs : List String) (c : Conn) :
    ∀ e ∈ (chatLoop inputs c).1, e.isConnEv = false := by
  induction inputs generalizing c with
  | nil => intro e he; cases he
  | cons i rest ih =>
      intro e he
      by_cases hm : pyStrip i = ""
      · simp [chatLoop, hm] at he
      · simp [chatLoop, hm, send_message] at he
        rcases he with rfl | rfl | rfl | he
        · rfl
        · rfl
        · rfl
        · exact ih (recvLine c).2 e he

lemma openConnection_spec (env : Env) :
    (openConnection env).1.cid = env.nextCid ∧ (openConnection env).1.closed = false ∧
      (openConnection env).2.nextCid = env.nextCid + 1 := by
  cases h : env.scripts <;> simp [openConnection, h]

/-- What the close-reconnect-register step does, for any register outcome:
the previous transport is closed before the fresh one is opened, the whole
registration exchange runs on the fresh transport, and the resulting
credential file is whatever registration left. -/
lemma reconnectAndRegister_spec (evPre : List SEv) (cPrev : Conn)
    (acctHash nick0 : Option String) (opNick : String) (hf : Option String)
    (env : Env) :
    (reconnectAndRegister evPre cPrev acctHash nick0 opNick hf env).events =
        evPre ++ [SEv.closedC cPrev.cid, SEv.opened (openConnection env).1.cid] ++
          (register_account (openConnection env).1 opNick hf).1 ∧
      (reconnectAndRegister evPre cPrev acctHash nick0 opNick hf env).hashFile =
        (register_account (openConnection env).1 opNick hf).2.1 := by
  simp only [reconnectAndRegister]
  rcases hreg : (register_account (openConnection env).1 opNick hf).2.2 with e | ⟨h2, n2, c2⟩
  · simp only [hreg]
    exact ⟨trivial, trivial⟩
  · simp only [hreg]
    exact ⟨trivial, trivial⟩

/-- A connection handed out by a successful `connect_and_auth` is open, and
its identity tells which path produced it: the login connection is the first
one (`env.nextCid`), a registration connection the second (`env.nextCid + 1`). -/
lemma connAuth_ok_conn (acctHash : Option String) (opNick : String)
    (hf : Option String) (env : Env) (c : Conn)
    (h : (connect_and_auth acctHash opNick hf env).result = Except.ok c) :
    c.closed = false ∧
      (c.cid = env.nextCid ∨ c.cid = env.nextCid + 1) := by
  have hopen := openConnection_spec env
  have hopen2 := openConnection_spec (openConnection env).2
  cases acctHash with
  | none =>
      simp only [connect_and_auth, reconnectAndRegister] at h
      rcases hreg : (register_account (openConnection (openConnection env).2).1 opNick hf).2.2
          with e | ⟨h2, n2, c2⟩
      · simp only [hreg] at h
        cases h
      · simp only [hreg] at h
        cases h
        have hc := register_ok_conn _ opNick hf h2 n2 c hreg
        refine ⟨?_, Or.inr ?_⟩
        · rw [hc.2, hopen2.2.1]
        · rw [hc.1, hopen2.1, hopen.2.2]
  | some tok =>
      simp only [connect_and_auth] at h
      rcases hlog : (login_with_hash tok (openConnection env).1).2 with e | ⟨nickOpt, b, c1'⟩
      · simp only [hlog] at h
        cases h
      · simp only [hlog] at h
        cases b with
        | true =>
            simp only [if_true] at h
            cases h
            have hc := login_ok_conn tok _ nickOpt true c hlog
            exact ⟨by rw [hc.2, hopen.2.1], Or.inl (by rw [hc.1, hopen.1])⟩
        | false =>
            simp only [if_false, reconnectAndRegister] at h
            rcases hreg : (register_account (openConnection (openConnection env).2).1 opNick hf).2.2
                with e | ⟨h2, n2, c2⟩
            · simp only [hreg] at h
              cases h
            · simp only [hreg] at h
              cases h
              have hc := register_ok_conn _ opNick hf h2 n2 c hreg
              refine ⟨?_, Or.inr ?_⟩
              · rw [hc.2, hopen2.2.1]
              · rw [hc.1, hopen2.1, hopen.2.2]

lemma register_error_no_saved (c : Conn) (opNick : String) (hf : Option String)
    (e : PyErr) (h : (register_account c opNick hf).2.2 = Except.error e) :
    ∀ h2, SEv.saved h2 ∉ (register_account c opNick hf).1 := by
  intro h2 hmem
  simp only [register_account] at h hmem
  rcases hr : (recvLine (recvLine (recvLine c).2).2).1 with s | ⟨s, fields⟩
  all_goals simp only [hr] at h hmem
  · simp at hmem
  · rcases ha : lookupField fields "account_hash" with _ | ah
    all_goals simp only [ha] at h hmem
    · simp at hmem
    · rcases hn : lookupField fields "nickname" with _ | nk
      all_goals simp only [hn] at h hmem
      · simp at hmem
      · cases h

/-- The close-and-reregister step: a connection it returns is the one it just
opened, and the credential file is rewritten exactly when registration
succeeded, to the newly issued hash. -/
lemma reconnect_paths (evPre : List SEv) (cPrev : Conn) (acct nick0 : Option String)
    (opNick : String) (hf : Option String) (env : Env) :
    (∀ c, (reconnectAndRegister evPre cPrev acct nick0 opNick hf env).result = Except.ok c →
        c.cid = env.nextCid ∧ c.closed = false) ∧
    (((reconnectAndRegister evPre cPrev acct nick0 opNick hf env).hashFile = hf ∧
        (∀ h2, SEv.saved h2 ∉ (register_account (openConnection env).1 opNick hf).1)) ∨
      ∃ h2, (reconnectAndRegister evPre cPrev acct nick0 opNick hf env).hashFile = some h2 ∧
        SEv.saved h2 ∈ (register_account (openConnection env).1 opNick hf).1 ∧
        (reconnectAndRegister evPre cPrev acct nick0 opNick hf env).accountHash = some h2) := by
  have hop := openConnection_spec env
  rcases hreg : (register_account (openConnection env).1 opNick hf).2.2 with e | ⟨h2, n2, c2⟩
  · refine ⟨?_, Or.inl ⟨?_, ?_⟩⟩
    · intro c hc
      simp only [reconnectAndRegister, hreg] at hc
      cases hc
    · simp only [reconnectAndRegister, hreg]
      exact register_error_hashFile _ opNick hf e hreg
    · exact register_error_no_saved _ opNick hf e hreg
  · have hs := register_ok_saves _ opNick hf h2 n2 c2 hreg
    have hcn := register_ok_conn _ opNick hf h2 n2 c2 hreg
    refine ⟨?_, Or.inr ⟨h2, ?_, hs.2, ?_⟩⟩
    · intro c hc
      simp only [reconnectAndRegister, hreg] at hc
      cases hc
      exact ⟨by rw [hcn.1, hop.1], by rw [hcn.2, hop.2.1]⟩
    · simp only [reconnectAndRegister, hreg]
      exact hs.1
    · simp only [reconnectAndRegister, hreg]

/-- `connect_and_auth` path analysis: a session obtained on the first
connection (the login path) leaves the credential file unchanged, and any
change of the credential file comes from a persisted `saved` event. -/
lemma connAuth_paths (acctHash : Option String) (opNick : String)
    (hf : Option String) (env : Env) :
    (∀ c, (connect_and_auth acctHash opNick hf env).result = Except.ok c →
      c.cid = env.nextCid → (connect_and_auth acctHash opNick hf env).hashFile = hf) ∧
    ((connect_and_auth acctHash opNick hf env).hashFile ≠ hf →
      ∃ h2, (connect_and_auth acctHash opNick hf env).hashFile = some h2 ∧
        SEv.saved h2 ∈ (connect_and_auth acctHash opNick hf env).events) := by
  have hop := openConnection_spec env
  cases acctHash with
  | none =>
      have hrp := reconnect_paths [SEv.opened (openConnection env).1.cid]
        (openConnection env).1 none none opNick hf (openConnection env).2
      have hspec := reconnectAndRegister_spec [SEv.opened (openConnection env).1.cid]
        (openConnection env).1 none none opNick hf (openConnection env).2
      constructor
      · intro c hc hcid
        simp only [connect_and_auth] at hc ⊢
        have hcc := (hrp.1 c hc).1
        rw [hop.2.2, hcid] at hcc
        exact absurd hcc (by omega)
      · intro hne
        simp only [connect_and_auth] at hne ⊢
        rcases hrp.2 with ⟨heq, _⟩ | ⟨h2, heq, hmem, _⟩
        · exact absurd heq hne
        · refine ⟨h2, heq, ?_⟩
          have hmm : SEv.saved h2 ∈ (reconnectAndRegister
              [SEv.opened (openConnection env).1.cid] (openConnection env).1 none none
              opNick hf (openConnection env).2).events := by
            rw [hspec.1]
            exact List.mem_append.mpr (Or.inr hmem)
          exact hmm
  | some tok =>
      rcases hlog : (login_with_hash tok (openConnection env).1).2 with e | ⟨nickOpt, b, c1'⟩
      · constructor
        · intro c hc
          simp only [connect_and_auth, hlog] at hc
          cases hc
        · intro hne
          simp only [connect_and_auth, hlog] at hne
          exact absurd rfl hne
      · cases b with
        | true =>
            constructor
            · intro c hc hcid
              simp only [connect_and_auth, hlog, if_true]
            · intro hne
              simp only [connect_and_auth, hlog, if_true] at hne
              exact absurd rfl hne
        | false =>
            have hrp := reconnect_paths
              (SEv.opened (openConnection env).1.cid ::
                (login_with_hash tok (openConnection env).1).1)
              c1' (some tok) nickOpt opNick hf (openConnection env).2
            have hspec := reconnectAndRegister_spec
              (SEv.opened (openConnection env).1.cid ::
                (login_with_hash tok (openConnection env).1).1)
              c1' (some tok) nickOpt opNick hf (openConnection env).2
            constructor
            · intro c hc hcid
              simp only [connect_and_auth, hlog] at hc ⊢
              have hcc := (hrp.1 c hc).1
              rw [hop.2.2, hcid] at hcc
              exact absurd hcc (by omega)
            · intro hne
              simp only [connect_and_auth, hlog] at hne ⊢
              rcases hrp.2 with ⟨heq, _⟩ | ⟨h2, heq, hmem, _⟩
              · exact absurd heq hne
              · refine ⟨h2, heq, ?_⟩
                have hmm : SEv.saved h2 ∈ (reconnectAndRegister
                    (SEv.opened (openConnection env).1.cid ::
                      (login_with_hash tok (openConnection env).1).1)
                    c1' (some tok) nickOpt opNick hf (openConnection env).2).events := by
                  rw [hspec.1]
                  exact List.mem_append.mpr (Or.inr hmem)
                exact hmm

/-! ### Claim C9 -/

/-- C9: the credential file is written only by a successful registration (a
successful `register_account` persists exactly the newly issued hash, and
every change of the credential file during `connect_and_auth` is such a
persisted hash), while a login attempt never writes the file, and a session
authenticated on the first (login) connection leaves the file exactly as it
was — the stored token is never overwritten as long as it authenticates. -/
theorem C9_token_never_overwritten :
    (∀ tok c h, SEv.saved h ∉ (login_with_hash tok c).1) ∧
    (∀ c opNick hf h2 n2 c2,
      (register_account c opNick hf).2.2 = Except.ok (h2, n2, c2) →
        (register_account c opNick hf).2.1 = some h2 ∧
          SEv.saved h2 ∈ (register_account c opNick hf).1) ∧
    (∀ acctHash opNick hf env c,
      (connect_and_auth acctHash opNick hf env).result = Except.ok c →
        c.cid = env.nextCid → (connect_and_auth acctHash opNick hf env).hashFile = hf) ∧
    (∀ acctHash opNick hf env,
      (connect_and_auth acctHash opNick hf env).hashFile ≠ hf →
        ∃ h2, (connect_and_auth acctHash opNick hf env).hashFile = some h2 ∧
          SEv.saved h2 ∈ (connect_and_auth acctHash opNick hf env).events) :=
  ⟨fun tok c h => login_no_saved tok c h,
   fun c opNick hf h2 n2 c2 h => register_ok_saves c opNick hf h2 n2 c2 h,
   fun acctHash opNick hf env c h hcid => (connAuth_paths acctHash opNick hf env).1 c h hcid,
   fun acctHash opNick hf env h => (connAuth_paths acctHash opNick hf env).2 h⟩

/-- C9 witness: a concrete successful login with the stored token `"t"`
leaves the credential file holding exactly `"t"`. -/
theorem C9_witness :
    (connect_and_auth (some "t") "Op" (some "t")
        (Env.mk [[SrvLine.plain "g", SrvLine.jsonObj "r" [("nickname", "N")]]] 0)).hashFile
      = some "t" :=
  C9_token_never_overwritten.2.2.1 (some "t") "Op" (some "t")
    (Env.mk [[SrvLine.plain "g", SrvLine.jsonObj "r" [("nickname", "N")]]] 0)
    (Conn.mk 0 [] false) rfl rfl

/-! ### Claim C10 -/

/-- C10: with no credential loaded, `connect_and_auth` opens a first
connection (`env.nextCid`), exchanges nothing on it (no line sent, no line
read), closes it, and opens a second connection (`env.nextCid + 1`) carrying
the entire registration sequence — greeting read, empty-line sentinel,
nickname-prompt read, nickname, account-record read, and at most the ensuing
credential save; registration never touches the first connection. -/
theorem C10_registration_on_second_connection (opNick : String) (hf : Option String)
    (env : Env) :
    ∃ tail,
      (connect_and_auth none opNick hf env).events =
        [SEv.opened env.nextCid, SEv.closedC env.nextCid, SEv.opened (env.nextCid + 1),
         SEv.recv (env.nextCid + 1), SEv.sent (env.nextCid + 1) "",
         SEv.recv (env.nextCid + 1), SEv.sent (env.nextCid + 1) (regNick opNick),
         SEv.recv (env.nextCid + 1)] ++ tail ∧
      (tail = [] ∨ ∃ h, tail = [SEv.saved h]) ∧
      (∀ s, SEv.sent env.nextCid s ∉ (connect_and_auth none opNick hf env).events) ∧
      SEv.recv env.nextCid ∉ (connect_and_auth none opNick hf env).events := by
  have hop := openConnection_spec env
  have hspec := reconnectAndRegister_spec [SEv.opened (openConnection env).1.cid]
    (openConnection env).1 none none opNick hf (openConnection env).2
  obtain ⟨tail, hre, htail⟩ := register_events (openConnection (openConnection env).2).1 opNick hf
  have hcid2 : (openConnection (openConnection env).2).1.cid = env.nextCid + 1 := by
    rw [(openConnection_spec (openConnection env).2).1, hop.2.2]
  have hev : (connect_and_auth none opNick hf env).events =
      [SEv.opened (openConnection env).1.cid] ++
        [SEv.closedC (openConnection env).1.cid,
         SEv.opened (openConnection (openConnection env).2).1.cid] ++
        (register_account (openConnection (openConnection env).2).1 opNick hf).1 := by
    simp only [connect_and_auth]
    exact hspec.1
  refine ⟨tail, ?_, htail, ?_, ?_⟩
  · rw [hev, hre, hop.1, hcid2]
    simp
  · intro s hmem
    rw [hev, hre, hop.1, hcid2] at hmem
    rcases htail with rfl | ⟨hh, rfl⟩ <;> simp at hmem
  · intro hmem
    rw [hev, hre, hop.1, hcid2] at hmem
    rcases htail with rfl | ⟨hh, rfl⟩ <;> simp at hmem

/-- C10 witness: the theorem at a concrete environment with two scripted
connections. -/
theorem C10_witness :
    ∃ tail,
      (connect_and_auth none "Op" none
          (Env.mk [[SrvLine.plain "greet1"],
            [SrvLine.plain "greet2", SrvLine.plain "prompt",
             SrvLine.jsonObj "r" [("account_hash", "NEW"), ("nickname", "NK")]]] 0)).events =
        [SEv.opened 0, SEv.closedC 0, SEv.opened 1, SEv.recv 1, SEv.sent 1 "",
         SEv.recv 1, SEv.sent 1 (regNick "Op"), SEv.recv 1] ++ tail ∧
      (tail = [] ∨ ∃ h, tail = [SEv.saved h]) ∧
      (∀ s, SEv.sent 0 s ∉ (connect_and_auth none "Op" none
          (Env.mk [[SrvLine.plain "greet1"],
            [SrvLine.plain "greet2", SrvLine.plain "prompt",
             SrvLine.jsonObj "r" [("account_hash", "NEW"), ("nickname", "NK")]]] 0)).events) ∧
      SEv.recv 0 ∉ (connect_and_auth none "Op" none
          (Env.mk [[SrvLine.plain "greet1"],
            [SrvLine.plain "greet2", SrvLine.plain "prompt",
             SrvLine.jsonObj "r" [("account_hash", "NEW"), ("nickname", "NK")]]] 0)).events :=
  C10_registration_on_second_connection "Op" none
    (Env.mk [[SrvLine.plain "greet1"],
      [SrvLine.plain "greet2", SrvLine.plain "prompt",
       SrvLine.jsonObj "r" [("account_hash", "NEW"), ("nickname", "NK")]]] 0)

/-! ### Claim C2 -/

/-- C2, claim as stated, is false: a response line that parses as JSON but is
not an Account Record (here an object with an `account_hash` but no
`nickname` field) fails to parse as a structured Account Record, yet the
sender does not fall back to registration — `login_with_hash` catches only
the JSON decode error, so the `KeyError` propagates: the attempt ends in an
error, no second connection is opened, and the credential file keeps the old
token. -/
theorem C2_counterexample :
    (connect_and_auth (some "tok") "Nick" (some "tok")
        (Env.mk [[SrvLine.plain "Hello",
          SrvLine.jsonObj "x" [("account_hash", "AH")]]] 0)).result
      = Except.error (PyErr.keyError "nickname") ∧
    (connect_and_auth (some "tok") "Nick" (some "tok")
        (Env.mk [[SrvLine.plain "Hello",
          SrvLine.jsonObj "x" [("account_hash", "AH")]]] 0)).hashFile = some "tok" ∧
    (connect_and_auth (some "tok") "Nick" (some "tok")
        (Env.mk [[SrvLine.plain "Hello",
          SrvLine.jsonObj "x" [("account_hash", "AH")]]] 0)).events.count
      (SEv.opened 1) = 0 :=
  ⟨rfl, rfl, rfl⟩

/-- C2 amended: whenever a saved token is sent and the server's response line
fails to parse as JSON, authentication is rejected without being treated as a
transport error: the current transport is closed, a fresh connection is
opened, the full registration exchange runs on that fresh connection, and it
ends with the newly issued token persisted to the credential file.  (When the
response parses as JSON but lacks the record fields, the `KeyError`
propagates instead — see the counterexample.) -/
theorem C2_amended (tok opNick : String) (hf : Option String) (env : Env)
    (gl g2 p2 : SrvLine) (bad rc : String) (fields : List (String × String))
    (newTok newNick : String)
    (hs : env.scripts = [[gl, SrvLine.plain bad], [g2, p2, SrvLine.jsonObj rc fields]])
    (ha : lookupField fields "account_hash" = some newTok)
    (hn : lookupField fields "nickname" = some newNick) :
    (connect_and_auth (some tok) opNick hf env).result =
        Except.ok (Conn.mk (env.nextCid + 1) [] false) ∧
      (connect_and_auth (some tok) opNick hf env).hashFile = some newTok ∧
      (connect_and_auth (some tok) opNick hf env).accountHash = some newTok ∧
      (connect_and_auth (some tok) opNick hf env).events =
        [SEv.opened env.nextCid, SEv.recv env.nextCid, SEv.sent env.nextCid tok,
         SEv.recv env.nextCid, SEv.closedC env.nextCid, SEv.opened (env.nextCid + 1),
         SEv.recv (env.nextCid + 1), SEv.sent (env.nextCid + 1) "",
         SEv.recv (env.nextCid + 1), SEv.sent (env.nextCid + 1) (regNick opNick),
         SEv.recv (env.nextCid + 1), SEv.saved newTok] := by
  obtain ⟨scripts, n⟩ := env
  dsimp only at hs
  subst hs
  simp [connect_and_auth, openConnection, login_with_hash, recvLine,
    reconnectAndRegister, register_account, ha, hn]

/-- C2 witness: the amended theorem at a concrete malformed (non-JSON) login
response. -/
theorem C2_witness :
    (connect_and_auth (some "tok") "Op" (some "tok")
        (Env.mk [[SrvLine.plain "g", SrvLine.plain "bad"],
          [SrvLine.plain "g2", SrvLine.plain "prompt",
           SrvLine.jsonObj "r" [("account_hash", "NEW"), ("nickname", "NK")]]] 0)).result =
        Except.ok (Conn.mk 1 [] false) ∧
      (connect_and_auth (some "tok") "Op" (some "tok")
        (Env.mk [[SrvLine.plain "g", SrvLine.plain "bad"],
          [SrvLine.plain "g2", SrvLine.plain "prompt",
           SrvLine.jsonObj "r" [("account_hash", "NEW"), ("nickname", "NK")]]] 0)).hashFile =
        some "NEW" ∧
      (connect_and_auth (some "tok") "Op" (some "tok")
        (Env.mk [[SrvLine.plain "g", SrvLine.plain "bad"],
          [SrvLine.plain "g2", SrvLine.plain "prompt",
           SrvLine.jsonObj "r" [("account_hash", "NEW"), ("nickname", "NK")]]] 0)).accountHash =
        some "NEW" ∧
      (connect_and_auth (some "tok") "Op" (some "tok")
        (Env.mk [[SrvLine.plain "g", SrvLine.plain "bad"],
          [SrvLine.plain "g2", SrvLine.plain "prompt",
           SrvLine.jsonObj "r" [("account_hash", "NEW"), ("nickname", "NK")]]] 0)).events =
        [SEv.opened 0, SEv.recv 0, SEv.sent 0 "tok", SEv.recv 0, SEv.closedC 0,
         SEv.opened 1, SEv.recv 1, SEv.sent 1 "", SEv.recv 1,
         SEv.sent 1 (regNick "Op"), SEv.recv 1, SEv.saved "NEW"] :=
  C2_amended "tok" "Op" (some "tok")
    (Env.mk [[SrvLine.plain "g", SrvLine.plain "bad"],
      [SrvLine.plain "g2", SrvLine.plain "prompt",
       SrvLine.jsonObj "r" [("account_hash", "NEW"), ("nickname", "NK")]]] 0)
    (SrvLine.plain "g") (SrvLine.plain "g2") (SrvLine.plain "prompt") "bad" "r"
    [("account_hash", "NEW"), ("nickname", "NK")] "NEW" "NK" rfl rfl rfl

/-! ### Claim C6 -/

/-- The messages the interactive session actually relays: each operator line
stripped of surrounding whitespace, up to (and excluding) the first line that
strips to nothing. -/
def opMessages (inputs : List String) : List String :=
  (inputs.takeWhile fun i => !(pyStrip i == "")).map pyStrip

/-- Spec-level description of the steady-state exchange: for each relayed
message, one `sent`, then exactly one acknowledgement read, then its display
— strictly alternating, no pipelining. -/
def specChatEvents (cid : Nat) : List SrvLine → List String → List SEv
  | _, [] => []
  | pending, m :: ms =>
      SEv.sent cid m :: SEv.recv cid ::
        SEv.printed (pyStrip (pending.headD (SrvLine.plain "")).content) ::
        specChatEvents cid pending.tail ms

/-- C6, claim as stated, is false: the operator line `" "` is not empty, yet
`input("> ").strip()` reduces it to the empty string, so the session ends
without sending it. -/
theorem C6_counterexample :
    chatLoop [" "] (Conn.mk 0 [SrvLine.plain "ok"] false) =
        ([], Conn.mk 0 [SrvLine.plain "ok"] false, LoopEnd.emptyInput) ∧
      (" " == "") = false :=
  ⟨rfl, rfl⟩

/-- C6 amended: an operator input line that strips (of surrounding
whitespace) to the empty string ends the session without error; every line
that strips to something non-empty is sent in stripped form, and the sender
then blocks for exactly one acknowledgement line and displays it before the
next input is processed — the event trace is exactly the strict
send/acknowledge/display alternation over the relayed messages. -/
theorem C6_amended (inputs : List String) (c : Conn) :
    (chatLoop inputs c).1 = specChatEvents c.cid c.pending (opMessages inputs) ∧
      ((chatLoop inputs c).2.2 = LoopEnd.emptyInput ↔
        inputs.any (fun i => pyStrip i == "") = true) := by
  induction inputs generalizing c with
  | nil => simp [chatLoop, opMessages, specChatEvents]
  | cons i rest ih =>
      by_cases hm : pyStrip i = ""
      · constructor
        · simp [chatLoop, hm, opMessages, specChatEvents]
        · simp [chatLoop, hm]
      · have hi := ih (recvLine c).2
        have hh := recvLine_head c
        constructor
        · simp [chatLoop, hm, send_message, opMessages, specChatEvents, hi.1,
            hh.1, hh.2, recvLine_cid]
        · simp [chatLoop, hm, send_message, hi.2]

/-! ### Claim C3 -/

lemma reconnect_scan (evPre : List SEv) (cPrev : Conn) (acct nick0 : Option String)
    (opNick : String) (hf : Option String) (env : Env)
    (hpre : scanOpenS false evPre = true) (hst : openStateS false evPre = true) :
    scanOpenS false (reconnectAndRegister evPre cPrev acct nick0 opNick hf env).events = true ∧
      openStateS false (reconnectAndRegister evPre cPrev acct nick0 opNick hf env).events
        = true := by
  have hspec := reconnectAndRegister_spec evPre cPrev acct nick0 opNick hf env
  have hni := scanOpenS_neutral (register_account (openConnection env).1 opNick hf).1
    (register_events_neutral _ opNick hf) true
  rw [hspec.1]
  constructor
  · simp [scanOpenS_append, openStateS_append, hpre, hst, scanOpenS, openStateS, hni.1]
  · simp [openStateS_append, hst, openStateS, hni.2]

lemma connAuth_scan (acctHash : Option String) (opNick : String) (hf : Option String)
    (env : Env) :
    scanOpenS false (connect_and_auth acctHash opNick hf env).events = true ∧
      openStateS false (connect_and_auth acctHash opNick hf env).events = true := by
  cases acctHash with
  | none =>
      have h := reconnect_scan [SEv.opened (openConnection env).1.cid]
        (openConnection env).1 none none opNick hf (openConnection env).2 rfl rfl
      simpa only [connect_and_auth] using h
  | some tok =>
      have hni := scanOpenS_neutral (login_with_hash tok (openConnection env).1).1
        (login_events_neutral tok (openConnection env).1) true
      rcases hlog : (login_with_hash tok (openConnection env).1).2 with e | ⟨nickOpt, b, c1'⟩
      · simp only [connect_and_auth, hlog]
        exact ⟨by simp [scanOpenS, hni.1], by simp [openStateS, hni.2]⟩
      · cases b with
        | true =>
            simp only [connect_and_auth, hlog, if_true]
            exact ⟨by simp [scanOpenS, hni.1], by simp [openStateS, hni.2]⟩
        | false =>
            have h := reconnect_scan
              (SEv.opened (openConnection env).1.cid ::
                (login_with_hash tok (openConnection env).1).1)
              c1' (some tok) nickOpt opNick hf (openConnection env).2
              (by simp [scanOpenS, hni.1]) (by simp [openStateS, hni.2])
            simpa only [connect_and_auth, hlog] using h

lemma interactive_scan (acctHash : Option String) (opNick : String)
    (inputs : List String) (hf : Option String) (env : Env) :
    scanOpenS false (interactive_mode acctHash opNick inputs hf env).events = true := by
  have ha := connAuth_scan acctHash opNick hf env
  rcases hres : (connect_and_auth acctHash opNick hf env).result with e | c
  · simp only [interactive_mode, hres]
    exact ha.1
  · have hch := scanOpenS_neutral (chatLoop inputs (recvLine c).2).1
      (chatLoop_events_neutral inputs (recvLine c).2) true
    simp only [interactive_mode, hres]
    rw [scanOpenS_append, scanOpenS_append, scanOpenS_append]
    rw [openStateS_append, openStateS_append]
    simp [ha.1, ha.2, scanOpenS, openStateS, hch.1, hch.2]
    split <;> simp [scanOpenS]

lemma interactive_closes (acctHash : Option String) (opNick : String)
    (inputs : List String) (hf : Option String) (env : Env) (c : Conn)
    (h : (connect_and_auth acctHash opNick hf env).result = Except.ok c) :
    SEv.closedC c.cid ∈ (interactive_mode acctHash opNick inputs hf env).events := by
  have hclosed := (connAuth_ok_conn acctHash opNick hf env c h).1
  have hcc := chatLoop_conn inputs (recvLine c).2
  have h1 : (chatLoop inputs (recvLine c).2).2.1.closed = false := by
    rw [hcc.2, recvLine_closed, hclosed]
  have h2 : (chatLoop inputs (recvLine c).2).2.1.cid = c.cid := by
    rw [hcc.1, recvLine_cid]
  simp only [interactive_mode, h]
  simp [h1, h2]

/-- C3: after every exit from the streaming state — error or not — the
current transport, if still open, is closed before any new connect attempt:
every listener iteration that reached streaming ends with the `finally`
close, the listener's loop never has two transports open at once, the
sender's whole run never has two transports open at once, and whenever the
sender's handshake hands out a streaming connection, that connection is
closed by the end of the run. -/
theorem C3_transport_closed_after_streaming :
    (∀ (host : String) (port : Int) lines ex, ∃ pre,
      listenIteration host port (Attempt.streamed lines ex) =
        pre ++ [Action.log "Закрытие соединения...", Action.closeWriter]) ∧
    (∀ (host : String) (port : Int) attempts,
      scanOpenL false (listenLoop host port attempts) = true) ∧
    (∀ acctHash opNick inputs hf env,
      scanOpenS false (interactive_mode acctHash opNick inputs hf env).events = true) ∧
    (∀ acctHash opNick inputs hf env c,
      (connect_and_auth acctHash opNick hf env).result = Except.ok c →
        SEv.closedC c.cid ∈ (interactive_mode acctHash opNick inputs hf env).events) :=
  ⟨fun host port lines ex => listenIteration_streamed_ends host port lines ex,
   fun host port attempts => (scanOpenL_listenLoop host port attempts).1,
   fun acctHash opNick inputs hf env => interactive_scan acctHash opNick inputs hf env,
   fun acctHash opNick inputs hf env c h =>
     interactive_closes acctHash opNick inputs hf env c h⟩

/-- C3 witness: a concrete login-authenticated session whose transport
(connection 0) is closed by the end of the run. -/
theorem C3_witness :
    SEv.closedC 0 ∈ (interactive_mode (some "t") "Op" ["msg"] (some "t")
      (Env.mk [[SrvLine.plain "g", SrvLine.jsonObj "r" [("nickname", "N")],
        SrvLine.plain "welcome", SrvLine.plain "ack"]] 0)).events :=
  C3_transport_closed_after_streaming.2.2.2 (some "t") "Op" ["msg"] (some "t")
    (Env.mk [[SrvLine.plain "g", SrvLine.jsonObj "r" [("nickname", "N")],
      SrvLine.plain "welcome", SrvLine.plain "ack"]] 0)
    (Conn.mk 0 [SrvLine.plain "welcome", SrvLine.plain "ack"] false) rfl

end ChatWs
